import Mathlib

/-!
A verification development for the quickcache RESP key-value server.

A shallow embedding of the server's wire-protocol codec (`src/resp.rs`),
command extraction (`extract_commands`), in-memory store (`src/storage.rs`)
and the per-event behaviour of the connection reactor (`src/main.rs`),
together with theorems settling the specification's claims about them.

Modelling conventions:
* Rust byte buffers (`&[u8]`, `Vec<u8>`) are `List Nat`, one entry per byte.
* A Rust `String` is represented by the list of its UTF-8 bytes; the
  validity check performed by `String::from_utf8` is modelled explicitly.
* Machine integers are `Nat`/`Int`; the `u64` multiplication in the `EX`
  option handler reduces modulo `2 ^ 64` (release-profile wrapping).
* Fallible code returns `Except String`, carrying the source's error text.
* The recursive RESP parser takes explicit fuel; the entry point
  `parse_resp` supplies `buffer.length + 1`, which is always sufficient
  because every parsing step consumes at least one byte.
-/

/-! ## Bytes, UTF-8 and decimal strings -/

/-- A UTF-8 continuation byte (`0x80..=0xBF`). -/
def isCont (c : Nat) : Bool := 128 ≤ c && c ≤ 191

mutual
/-- UTF-8 validity of a byte sequence, as checked by Rust's
`String::from_utf8` (excludes surrogates, overlong forms and
code points above `U+10FFFF`): each lead byte fixes the number of
continuation bytes and the admissible range of the first one. -/
def isValidUtf8 : List Nat → Bool
  | [] => true
  | b :: rest =>
    if b ≤ 127 then isValidUtf8 rest
    else if 194 ≤ b && b ≤ 223 then utf8Cont1 128 191 rest
    else if b = 224 then utf8Cont2 160 191 rest
    else if 225 ≤ b && b ≤ 236 then utf8Cont2 128 191 rest
    else if b = 237 then utf8Cont2 128 159 rest
    else if 238 ≤ b && b ≤ 239 then utf8Cont2 128 191 rest
    else if b = 240 then utf8Cont3 144 191 rest
    else if 241 ≤ b && b ≤ 243 then utf8Cont3 128 191 rest
    else if b = 244 then utf8Cont3 128 143 rest
    else false

/-- One continuation byte in `[lo, hi]`, then a fresh scalar. -/
def utf8Cont1 (lo hi : Nat) : List Nat → Bool
  | c1 :: r => (lo ≤ c1 && c1 ≤ hi) && isValidUtf8 r
  | [] => false

/-- A continuation byte in `[lo, hi]`, one ordinary continuation byte,
then a fresh scalar. -/
def utf8Cont2 (lo hi : Nat) : List Nat → Bool
  | c1 :: c2 :: r => (lo ≤ c1 && c1 ≤ hi) && isCont c2 && isValidUtf8 r
  | _ => false

/-- A continuation byte in `[lo, hi]`, two ordinary continuation bytes,
then a fresh scalar. -/
def utf8Cont3 (lo hi : Nat) : List Nat → Bool
  | c1 :: c2 :: c3 :: r => (lo ≤ c1 && c1 ≤ hi) && isCont c2 && isCont c3 && isValidUtf8 r
  | _ => false
end

/-- `String::from_utf8`: succeeds exactly on valid UTF-8, returning the
same bytes (our `String` representation). -/
def fromUtf8 (l : List Nat) : Except String (List Nat) :=
  if isValidUtf8 l then .ok l else .error "invalid utf-8"

/-- `str::to_uppercase`, byte level. Exact on ASCII; the commands, option
tokens and digits compared against it in the source are all ASCII. -/
def toUpperByte (b : Nat) : Nat := if 97 ≤ b && b ≤ 122 then b - 32 else b

/-- `s.to_uppercase()` on our byte-list strings. -/
def toUppercase (l : List Nat) : List Nat := l.map toUpperByte

/-- Bytes of an ASCII string literal (used only for ASCII text, where the
UTF-8 encoding is the code-point sequence). -/
def strToBytes (s : String) : List Nat := s.data.map (fun c => c.toNat)

/-- ASCII decimal digit test. -/
def isDigit (b : Nat) : Bool := 48 ≤ b && b ≤ 57

/-- Value of an ASCII digit string, most significant first (the
accumulator loop inside Rust's integer `FromStr`). -/
def digitsToNat (l : List Nat) : Nat := l.foldl (fun a b => a * 10 + (b - 48)) 0

/-- Digit-emitting loop for formatting a `Nat` in decimal; `fuel ≥ n`
guarantees completion. -/
def natDigitsGo : Nat → Nat → List Nat → List Nat
  | 0, _, acc => acc
  | fuel + 1, n, acc => if n = 0 then acc else natDigitsGo fuel (n / 10) ((n % 10 + 48) :: acc)

/-- ASCII decimal representation of a `Nat` (Rust's `Display` for
unsigned integers, used by `format!` for lengths). -/
def natDigits (n : Nat) : List Nat :=
  if n = 0 then [48] else natDigitsGo n n []

/-- ASCII decimal representation of an `Int` (Rust's `Display` for
`i64`). -/
def intDigits (i : Int) : List Nat :=
  if i < 0 then 45 :: natDigits i.natAbs else natDigits i.natAbs

/-- Shared digit-run phase of Rust's integer `FromStr`: the input after
an optional sign must be nonempty, all digits, and fit below the bound. -/
def parseDigits (l : List Nat) (max : Nat) : Except String Nat :=
  if l = [] then .error "cannot parse integer from empty string"
  else if l.all isDigit then
    if digitsToNat l ≤ max then .ok (digitsToNat l)
    else .error "number too large to fit in target type"
  else .error "invalid digit found in string"

/-- `str::parse::<u64>`: optional `+`, digits, bound `2 ^ 64 - 1`. -/
def parseU64 : List Nat → Except String Nat
  | 43 :: rest => parseDigits rest (2 ^ 64 - 1)
  | l => parseDigits l (2 ^ 64 - 1)

/-- `str::parse::<i64>`: optional sign, digits, two's-complement bounds. -/
def parseI64 : List Nat → Except String Int
  | 43 :: rest => (parseDigits rest (2 ^ 63 - 1)).map Int.ofNat
  | 45 :: rest => (parseDigits rest (2 ^ 63)).map (fun n => -(Int.ofNat n))
  | l => (parseDigits l (2 ^ 63 - 1)).map Int.ofNat

/-- `str::parse::<i32>`: optional sign, digits, two's-complement bounds.
This is the parse performed by `pick_bulk_string`'s unannotated
`parse()?`: its result is constrained only by `len == -1` and `0..len`,
so Rust's integer-literal fallback types it as `i32`. -/
def parseI32 : List Nat → Except String Int
  | 43 :: rest => (parseDigits rest (2 ^ 31 - 1)).map Int.ofNat
  | 45 :: rest => (parseDigits rest (2 ^ 31)).map (fun n => -(Int.ofNat n))
  | l => (parseDigits l (2 ^ 31 - 1)).map Int.ofNat

/-! ## The protocol value type and its serialization (`src/resp.rs`) -/

/-- `RedisValue` from `src/resp.rs`. String payloads are the UTF-8 bytes
of the Rust `String` fields. -/
inductive RedisValue where
  | simpleString (s : List Nat)
  | error (e : List Nat)
  | integer (i : Int)
  | bulkString (b : Option (List Nat))
  | array (a : Option (List RedisValue))
  | boolean (b : Bool)
  | null

/-- `RedisCommand` from `src/resp.rs`; the `SET` expiry is the `u64`
milliseconds value. -/
inductive RedisCommand where
  | PING (v : RedisValue)
  | ECHO (v : RedisValue)
  | SET (k v : RedisValue) (expiry : Option Nat)
  | GET (k : RedisValue)
  | CONFIG
  | COMMAND

mutual
/-- `RedisValue::to_resp_string`, as the UTF-8 bytes of the produced
`String` (13, 10 are `\r`, `\n`; 43 `+`, 45 `-`, 58 `:`, 36 `$`, 42 `*`,
35 `#`, 95 `_`, 116 `t`, 102 `f`, 49 `1`). -/
def to_resp_string : RedisValue → List Nat
  | .simpleString s => 43 :: s ++ [13, 10]
  | .error e => 45 :: e ++ [13, 10]
  | .integer i => 58 :: intDigits i ++ [13, 10]
  | .bulkString (some b) => 36 :: natDigits b.length ++ [13, 10] ++ b ++ [13, 10]
  | .bulkString none => [36, 45, 49, 13, 10]
  | .array (some a) => 42 :: natDigits a.length ++ [13, 10] ++ serializeList a
  | .array none => [42, 45, 49, 13, 10]
  | .boolean b => [35, if b then 116 else 102, 13, 10]
  | .null => [95, 13, 10]

/-- The `for v in a { result.push_str(&v.to_resp_string()) }` loop of the
`Array(Some(a))` arm. -/
def serializeList : List RedisValue → List Nat
  | [] => []
  | v :: rest => to_resp_string v ++ serializeList rest
end

/-! ## The parser (`parse_resp` and the `pick_*` helpers)

All `pick_*` functions receive the buffer still containing the leading
type byte (the Rust versions receive the shared iterator positioned on
it and begin with `iter.next()`), and return the parsed value together
with the unconsumed remainder of the buffer (the iterator's state). -/

/-- The header-collecting loop shared by every `pick_*` function:
`while let Some(&&byte) = iter.peek { if byte == b'\r' { iter.next();
iter.next(); break; } result.push(byte); iter.next(); }`. Collects bytes
up to the first 13 (`\r`), then skips up to two bytes; if the buffer
ends first, returns what was collected. -/
def takeLine : List Nat → List Nat × List Nat
  | [] => ([], [])
  | b :: rest =>
    if b = 13 then ([], rest.drop 1)
    else
      let p := takeLine rest
      (b :: p.1, p.2)

/-- The `for _ in 0..len { result.push(*iter.next().ok_or(...)?) }` loop:
take exactly `n` bytes or fail with the source's end-of-input error. -/
def takeN : Nat → List Nat → Except String (List Nat × List Nat)
  | 0, l => .ok ([], l)
  | _ + 1, [] => .error "Unexpected end of input"
  | n + 1, b :: rest =>
    match takeN n rest with
    | .ok p => .ok (b :: p.1, p.2)
    | .error e => .error e

/-- `pick_simple_string` from `src/resp.rs`. -/
def pick_simple_string (buf : List Nat) : Except String (RedisValue × List Nat) :=
  let p := takeLine buf.tail
  match fromUtf8 p.1 with
  | .ok s => .ok (.simpleString s, p.2)
  | .error e => .error e

/-- `pick_error` from `src/resp.rs`. -/
def pick_error (buf : List Nat) : Except String (RedisValue × List Nat) :=
  let p := takeLine buf.tail
  match fromUtf8 p.1 with
  | .ok s => .ok (.error s, p.2)
  | .error e => .error e

/-- `pick_integer` from `src/resp.rs`. -/
def pick_integer (buf : List Nat) : Except String (RedisValue × List Nat) :=
  let p := takeLine buf.tail
  match fromUtf8 p.1 with
  | .ok s =>
    match parseI64 s with
    | .ok i => .ok (.integer i, p.2)
    | .error e => .error e
  | .error e => .error e

/-- `pick_bulk_string` from `src/resp.rs`. Unlike `pick_array`'s
explicit `parse::<i64>()`, the length parse here is unannotated and
infers `i32`, so declared lengths of `2 ^ 31` and above fail with the
overflow error before any payload is read. After the payload the source
advances the iterator twice without checking that the skipped bytes are
`\r\n`. A negative length other than `-1` makes the `0..len` range
empty, yielding `BulkString(Some(""))` (we do not model the
`Vec::with_capacity` allocation). -/
def pick_bulk_string (buf : List Nat) : Except String (RedisValue × List Nat) :=
  let p := takeLine buf.tail
  match fromUtf8 p.1 with
  | .error e => .error e
  | .ok s =>
    match parseI32 s with
    | .error e => .error e
    | .ok len =>
      if len = -1 then .ok (.bulkString none, p.2)
      else
        match takeN len.toNat p.2 with
        | .error e => .error e
        | .ok q =>
          match fromUtf8 q.1 with
          | .ok payload => .ok (.bulkString (some payload), q.2.drop 2)
          | .error e => .error e

/-- `pick_boolean` from `src/resp.rs`. -/
def pick_boolean (buf : List Nat) : Except String (RedisValue × List Nat) :=
  let p := takeLine buf.tail
  match fromUtf8 p.1 with
  | .error e => .error e
  | .ok s =>
    if s = [116] then .ok (.boolean true, p.2)
    else if s = [102] then .ok (.boolean false, p.2)
    else .error "Unexpected byte in boolean"

mutual
/-- `pick_array` from `src/resp.rs`. The parsed element count is used
only for the `-1` nil check; the element loop runs until the buffer is
exhausted, a bare `\r` is seen, or an unrecognized byte is hit. -/
def pick_array : Nat → List Nat → Except String (RedisValue × List Nat)
  | 0, _ => .error "insufficient fuel"
  | fuel + 1, buf =>
    let p := takeLine buf.tail
    match fromUtf8 p.1 with
    | .error e => .error e
    | .ok s =>
      match parseI64 s with
      | .error e => .error e
      | .ok len =>
        if len = -1 then .ok (.array none, p.2)
        else
          match arrayLoop fuel p.2 [] with
          | .ok q => .ok (.array (some q.1), q.2)
          | .error e => .error e

/-- The `while let Some(&&array_byte) = iter.peek()` element loop of
`pick_array`, with its dispatch on `+ - : $ * \r`. -/
def arrayLoop : Nat → List Nat → List RedisValue → Except String (List RedisValue × List Nat)
  | 0, _, _ => .error "insufficient fuel"
  | fuel + 1, buf, acc =>
    match buf with
    | [] => .ok (acc, [])
    | b :: rest =>
      if b = 43 then
        match pick_simple_string (b :: rest) with
        | .ok r => arrayLoop fuel r.2 (acc ++ [r.1])
        | .error e => .error e
      else if b = 45 then
        match pick_error (b :: rest) with
        | .ok r => arrayLoop fuel r.2 (acc ++ [r.1])
        | .error e => .error e
      else if b = 58 then
        match pick_integer (b :: rest) with
        | .ok r => arrayLoop fuel r.2 (acc ++ [r.1])
        | .error e => .error e
      else if b = 36 then
        match pick_bulk_string (b :: rest) with
        | .ok r => arrayLoop fuel r.2 (acc ++ [r.1])
        | .error e => .error e
      else if b = 42 then
        match pick_array fuel (b :: rest) with
        | .ok r => arrayLoop fuel r.2 (acc ++ [r.1])
        | .error e => .error e
      else if b = 13 then .ok (acc, rest.drop 1)
      else .error "Unexpected byte in array"
end

/-- The body of `parse_resp`'s `while let Some(&&byte) = iter.peek()`
loop. Only the legacy-`PING` arm can fall through and iterate again
(after consuming six bytes that are not exactly `PING\r\n`); every
other arm returns. -/
def parse_resp_go : Nat → List Nat → Except String (Option RedisValue)
  | 0, _ => .error "insufficient fuel"
  | fuel + 1, buf =>
    match buf with
    | [] => .ok none
    | b :: rest =>
      if b = 43 then
        match pick_simple_string (b :: rest) with
        | .ok r => .ok (some r.1)
        | .error e => .error e
      else if b = 45 then
        match pick_error (b :: rest) with
        | .ok r => .ok (some r.1)
        | .error e => .error e
      else if b = 58 then
        match pick_integer (b :: rest) with
        | .ok r => .ok (some r.1)
        | .error e => .error e
      else if b = 36 then
        match pick_bulk_string (b :: rest) with
        | .ok r => .ok (some r.1)
        | .error e => .error e
      else if b = 42 then
        match pick_array fuel (b :: rest) with
        | .ok r => .ok (some r.1)
        | .error e => .error e
      else if b = 35 then
        match pick_boolean (b :: rest) with
        | .ok r => .ok (some r.1)
        | .error e => .error e
      else if b = 95 then .ok (some .null)
      else if b = 80 then
        match takeN 6 (b :: rest) with
        | .error e => .error e
        | .ok q =>
          match fromUtf8 q.1 with
          | .error e => .error e
          | .ok parsed =>
            if parsed = [80, 73, 78, 71, 13, 10] then
              .ok (some (.array (some [.simpleString [80, 73, 78, 71]])))
            else parse_resp_go fuel q.2
      else .ok none

/-- `parse_resp` from `src/resp.rs`. The fuel `buffer.length + 1` always
suffices: every loop iteration and recursive call consumes at least one
byte of the buffer. -/
def parse_resp (buffer : List Nat) : Except String (Option RedisValue) :=
  parse_resp_go (buffer.length + 1) buffer

/-! ## Command extraction (`extract_commands`, `src/resp.rs`) -/

/-- Outcome of `extract_commands`. Rust's `Result` cannot express a
panic, so the out-of-bounds `&array[0]` indexing is a distinct outcome. -/
inductive ExtractResult where
  | panicked
  | failure (e : String)
  | ok (cmd : RedisCommand)

/-- The `while let Some(arg) = additional_args.next()` option loop of the
`SET` arm: `EX seconds` stores `seconds * 1000` (u64 wrapping), `PX
milliseconds` stores the value verbatim; each occurrence overwrites
`expiry`. -/
def setOptionsLoop : List RedisValue → Option Nat → Except String (Option Nat)
  | [], expiry => .ok expiry
  | arg :: rest, _expiry =>
    match arg with
    | .simpleString s | .bulkString (some s) =>
      if toUppercase s = [69, 88] then
        match rest with
        | [] => .error "Invalid number of arguments for SET"
        | arg2 :: rest2 =>
          match arg2 with
          | .simpleString t | .bulkString (some t) =>
            match parseU64 t with
            | .ok n => setOptionsLoop rest2 (some (n * 1000 % 2 ^ 64))
            | .error e => .error e
          | _ => .error "Invalid argument for SET"
      else if toUppercase s = [80, 88] then
        match rest with
        | [] => .error "Invalid number of arguments for SET"
        | arg2 :: rest2 =>
          match arg2 with
          | .simpleString t | .bulkString (some t) =>
            match parseU64 t with
            | .ok n => setOptionsLoop rest2 (some n)
            | .error e => .error e
          | _ => .error "Invalid argument for SET"
      else .error "Invalid argument for SET"
    | _ => .error "Invalid argument for SET"

/-- Dispatch of `extract_commands` on the uppercased command name
(`PING`, `ECHO`, `GET`, `SET`, `CONFIG`, `COMMAND`). -/
def extractNamed (name : List Nat) (args : List RedisValue) : ExtractResult :=
  if name = [80, 73, 78, 71] then
    if args.length > 1 then .failure "Invalid number of arguments for PING"
    else if args.length = 1 then
      match args.head? with
      | some (.simpleString s) | some (.bulkString (some s)) =>
        .ok (.PING (.bulkString (some s)))
      | _ => .failure "Invalid argument for PING"
    else .ok (.PING (.simpleString [80, 79, 78, 71]))
  else if name = [69, 67, 72, 79] then
    match args with
    | [.simpleString s] | [.bulkString (some s)] => .ok (.ECHO (.bulkString (some s)))
    | [_] => .failure "Invalid argument for ECHO"
    | _ => .failure "Invalid number of arguments for ECHO"
  else if name = [71, 69, 84] then
    match args with
    | [.simpleString s] | [.bulkString (some s)] => .ok (.GET (.bulkString (some s)))
    | [_] => .failure "Invalid argument for GET"
    | _ => .failure "Invalid number of arguments for GET"
  else if name = [83, 69, 84] then
    match args with
    | a0 :: a1 :: opts =>
      match a0 with
      | .simpleString ks | .bulkString (some ks) =>
        match a1 with
        | .simpleString vs | .bulkString (some vs) =>
          match setOptionsLoop opts none with
          | .ok expiry => .ok (.SET (.bulkString (some ks)) (.bulkString (some vs)) expiry)
          | .error e => .failure e
        | _ => .failure "Invalid argument for SET"
      | _ => .failure "Invalid argument for SET"
    | _ => .failure "Invalid number of arguments for SET"
  else if name = [67, 79, 78, 70, 73, 71] then .ok .CONFIG
  else if name = [67, 79, 77, 77, 65, 78, 68] then .ok .COMMAND
  else .failure "Unknown command"

/-- The `match parsed` body of `extract_commands`: only a parsed
`Array(Some(array))` is accepted; `&array[0]` panics when the array is
empty (`Vec` indexing is bounds-checked). -/
def extractFromParsed : Option RedisValue → ExtractResult
  | some (.array (some arr)) =>
    match arr with
    | [] => .panicked
    | command :: args =>
      match command with
      | .simpleString s | .bulkString (some s) => extractNamed (toUppercase s) args
      | _ => .failure "Invalid command in matching"
  | none => .failure "Invalid command parsed a None"
  | some _ => .failure "Invalid command couldnt match"

/-- `extract_commands` from `src/resp.rs`: parse, then interpret the
parsed value; parse errors propagate through the `?`. -/
def extract_commands (buffer : List Nat) : ExtractResult :=
  match parse_resp buffer with
  | .error e => .failure e
  | .ok parsed => extractFromParsed parsed

/-! ## The request handler (`handle_request`, `src/main.rs`) -/

/-- Outcome of `handle_request`: the reply bytes, unless command
extraction panicked. -/
inductive HandleResult where
  | panicked
  | reply (bytes : List Nat)

/-- `handle_request` from `src/main.rs`: extraction failures get the
generic parse-error reply; `PING`/`ECHO` get their message serialized;
every other extracted command falls to the `_` arm and is answered
with `-ERR unknown command\r\n`. -/
def handle_request (request : List Nat) : HandleResult :=
  match extract_commands request with
  | .panicked => .panicked
  | .failure _ => .reply (strToBytes "-ERR failed to parse request\r\n")
  | .ok cmd =>
    match cmd with
    | .PING message | .ECHO message => .reply (to_resp_string message)
    | _ => .reply (strToBytes "-ERR unknown command\r\n")

/-! ## The store (`src/storage.rs`)

`Instant` is modelled as a millisecond count on a monotonic clock;
`Instant::elapsed` at read time is `now - inserted_at` (never negative,
matching truncated `Nat` subtraction). `Duration` expiries are stored in
milliseconds, so `as_millis` comparisons are direct. -/

/-- `DataValue` from `src/storage.rs`. -/
structure DataValue where
  value : RedisValue
  expiry : Option Nat
  inserted_at : Nat

/-- `Storage` from `src/storage.rs`; the `HashMap` is modelled as an
association list with at most one entry per key. -/
structure Storage where
  data : List (List Nat × DataValue)

/-- `HashMap::get` on the association list. -/
def assocLookup : List (List Nat × DataValue) → List Nat → Option DataValue
  | [], _ => none
  | (k, d) :: rest, key => if k = key then some d else assocLookup rest key

/-- `HashMap::insert` on the association list: replaces the existing
entry for the key, else appends. -/
def assocInsert : List (List Nat × DataValue) → List Nat → DataValue → List (List Nat × DataValue)
  | [], key, d => [(key, d)]
  | (k, old) :: rest, key, d =>
    if k = key then (k, d) :: rest else (k, old) :: assocInsert rest key d

/-- `Storage::get` from `src/storage.rs`. Takes `&self`, so the store it
operates on is returned unchanged alongside the result: an entry whose
expiry has elapsed is skipped, never removed. -/
def Storage.get (s : Storage) (key : List Nat) (now : Nat) : Option DataValue × Storage :=
  match assocLookup s.data key with
  | some d =>
    match d.expiry with
    | some e => if now - d.inserted_at > e then (none, s) else (some d, s)
    | none => (some d, s)
  | none => (none, s)

/-- `Storage::set` from `src/storage.rs`: unconditional insert/replace
with `inserted_at = now`. -/
def Storage.set (s : Storage) (key : List Nat) (value : RedisValue) (expiry : Option Nat)
    (now : Nat) : Storage :=
  { data := assocInsert s.data key ⟨value, expiry, now⟩ }

/-! ## The connection reactor (`main`, `src/main.rs`)

One iteration of the event loop for an event on an established (or
stale) connection descriptor — the `else` branch of `main`'s event
dispatch. Socket I/O is supplied by oracles: a list of outcomes for the
successive `read` calls of `handle_read` and for the successive `write`
calls of `write_to_socket` (an exhausted oracle behaves as would-block).
`update_kqueue` is modelled as a pure update of the registration set
(its `kevent` syscall is assumed to succeed). Removing a connection from
`streams_map` drops its `TcpStream`, which closes the descriptor, and
closing a descriptor removes all its kevent registrations (kqueue(2)):
`dropConnection` performs both. -/

/-- A kqueue interest/filter (`EVFILT_READ` / `EVFILT_WRITE`), plus the
catch-all for any other filter value delivered by the kernel. -/
inductive KFilter where
  | read
  | write
  | other
  deriving DecidableEq

/-- Result of one `self.stream.read(&mut buffer)` call: `ok chunk` is
`Ok(chunk.length)` with `chunk.length ≤ 1024` bytes read. -/
inductive ReadResult where
  | ok (chunk : List Nat)
  | wouldBlock
  | fatal
  deriving DecidableEq

/-- What `handle_read` reports to `main`. -/
inductive ReadOutcome where
  | disconnected
  | data (bytes : List Nat)
  | ioError
  deriving DecidableEq

/-- The read loop of `RequestContext::handle_read`: drain in 1024-byte
chunks until a short read or would-block; `Ok(0)` is a client
disconnect; other errors abort the read. -/
def handle_read_go : List ReadResult → List Nat → ReadOutcome
  | [], acc => .data acc
  | .ok chunk :: rest, acc =>
    if chunk.length = 0 then .disconnected
    else if chunk.length < 1024 then .data (acc ++ chunk)
    else handle_read_go rest (acc ++ chunk)
  | .wouldBlock :: _, acc => .data acc
  | .fatal :: _, _ => .ioError

/-- `RequestContext::handle_read` from `src/main.rs`. -/
def handle_read (reads : List ReadResult) : ReadOutcome := handle_read_go reads []

/-- Result of one `self.stream.write(&self.write_buffer)` call: `ok n`
is `Ok(n)` bytes written. -/
inductive WriteResult where
  | ok (n : Nat)
  | wouldBlock
  | fatal
  deriving DecidableEq

/-- `RequestContext::write_to_socket` from `src/main.rs`: repeatedly
write and drain the written prefix; stop at an empty buffer, a
zero-length write, or would-block — all reported as success (`Ok(())`,
here `false` in the second component); only other errors are reported
(`true`). The remaining buffer is returned. -/
def write_to_socket : List WriteResult → List Nat → List Nat × Bool
  | _, [] => ([], false)
  | [], buf => (buf, false)
  | .ok n :: rest, buf => if n = 0 then (buf, false) else write_to_socket rest (buf.drop n)
  | .wouldBlock :: _, buf => (buf, false)
  | .fatal :: _, buf => (buf, true)

/-- `RequestContext` from `src/main.rs` (the `TcpStream` itself lives in
the oracles). -/
structure RequestContext where
  write_buffer : List Nat
  deriving DecidableEq

/-- The reactor state: `streams_map` (an association list keyed by the
descriptor, at most one entry per key) and the set of kqueue
registrations `(ident, filter)`. -/
structure ServerState where
  streams : List (Nat × RequestContext)
  registrations : List (Nat × KFilter)
  deriving DecidableEq

/-- `streams_map.get(&fd)` / `get_mut`. -/
def streamsLookup : List (Nat × RequestContext) → Nat → Option RequestContext
  | [], _ => none
  | (k, c) :: rest, fd => if k = fd then some c else streamsLookup rest fd

/-- In-place mutation of the entry behind `get_mut(&fd)`. -/
def streamsUpdate : List (Nat × RequestContext) → Nat → RequestContext →
    List (Nat × RequestContext)
  | [], _, _ => []
  | (k, c) :: rest, fd, ctx =>
    if k = fd then (k, ctx) :: rest else (k, c) :: streamsUpdate rest fd ctx

/-- `update_kqueue(..., Register)`: `EV_ADD` is idempotent. -/
def kqRegister (regs : List (Nat × KFilter)) (fd : Nat) (f : KFilter) : List (Nat × KFilter) :=
  if (fd, f) ∈ regs then regs else regs ++ [(fd, f)]

/-- `update_kqueue(..., Unregister)`: `EV_DELETE` for one filter. -/
def kqUnregister (regs : List (Nat × KFilter)) (fd : Nat) (f : KFilter) : List (Nat × KFilter) :=
  regs.filter (fun p => p ≠ (fd, f))

/-- `streams_map.remove(&fd)`: the dropped `RequestContext` closes its
`TcpStream`, and closing the descriptor removes every kevent registered
for it (kqueue(2) close semantics). -/
def dropConnection (s : ServerState) (fd : Nat) : ServerState :=
  { streams := s.streams.filter (fun p => p.1 != fd),
    registrations := s.registrations.filter (fun p => p.1 != fd) }

/-- One reactor step: either a panic propagated out of `handle_request`,
or the next state plus the messages printed (`println!`/`eprintln!`
text, without the formatted arguments). -/
inductive StepResult where
  | panicked
  | next (s : ServerState) (logs : List String)
  deriving DecidableEq

/-- The `else` branch of `main`'s event dispatch in `src/main.rs`: the
handling of one kqueue event whose `ident` is not the listener. -/
def handle_conn_event (s : ServerState) (fd : Nat) (filter : KFilter)
    (reads : List ReadResult) (writes : List WriteResult) : StepResult :=
  match streamsLookup s.streams fd with
  | some ctx =>
    match filter with
    | .read =>
      match handle_read reads with
      | .data request =>
        match handle_request request with
        | .panicked => .panicked
        | .reply response =>
          .next
            { streams := streamsUpdate s.streams fd
                { ctx with write_buffer := ctx.write_buffer ++ response },
              registrations := kqRegister s.registrations fd .write }
            []
      | .disconnected => .next (dropConnection s fd) ["Client disconnected"]
      | .ioError => .next s ["Failed to read from stream"]
    | .write =>
      let wr := write_to_socket writes ctx.write_buffer
      let s1 : ServerState :=
        { s with streams := streamsUpdate s.streams fd { ctx with write_buffer := wr.1 } }
      if wr.2 then .next s1 ["Failed to write to stream"]
      else
        .next { s1 with registrations := kqUnregister s1.registrations fd .write }
          ["Response sent"]
    | .other => .next s ["Got unexpected event for file descriptor"]
  | none => .next s ["Got event for unknown file descriptor"]

/-! ## The round-trippable fragment of `RedisValue`

`parse_resp (to_resp_string v)` recovers `v` only on a fragment of the
value type, because of four behaviours of the parser: header lines stop
at the first `\r` byte; array counts are re-read through `parse::<i64>`
and bulk-string lengths through an inferred-`i32` parse; the array
element loop rejects `#`/`_` elements; and the loop ignores the element
count, consuming elements until the end of the input. The predicates below carve out that fragment: `wfDelim` holds
for values whose serialization the element loop consumes exactly even
when followed by further bytes; `wfArr` additionally allows a non-nil
array, whose parse consumes everything to the end of the input, so it
is safe only in final position; `wfTop` additionally allows the
booleans and `Null` accepted at top level. -/

/-- No carriage return among the bytes (header text safety). -/
def noCR (l : List Nat) : Bool := l.all (fun b => b != 13)

/-- Values parsed back exactly even when more input follows. -/
def wfDelim : RedisValue → Bool
  | .simpleString s => noCR s && isValidUtf8 s
  | .error e => noCR e && isValidUtf8 e
  | .integer i => decide (-(2 ^ 63) ≤ i) && decide (i < 2 ^ 63)
  | .bulkString (some b) => isValidUtf8 b && decide (b.length < 2 ^ 31)
  | .bulkString none => true
  | .array none => true
  | _ => false

mutual
/-- Values parsed back exactly when their serialization ends the input. -/
def wfArr : RedisValue → Bool
  | .array (some l) => decide (l.length < 2 ^ 63) && wfElems l
  | .array none => wfDelim (.array none)
  | .boolean _ => false
  | .null => false
  | .simpleString s => wfDelim (.simpleString s)
  | .error e => wfDelim (.error e)
  | .integer i => wfDelim (.integer i)
  | .bulkString b => wfDelim (.bulkString b)

/-- Element lists of a round-trippable array: every element but the last
is delimited, and the last (which the loop parses up to the end of the
input) may itself be a non-nil array. -/
def wfElems : List RedisValue → Bool
  | [] => true
  | [v] => wfArr v
  | v :: v2 :: rest => wfDelim v && wfElems (v2 :: rest)
end

/-- Top-level round-trippable values: `#`/`_` forms are parsed fine at
top level, everything else as in final position. -/
def wfTop : RedisValue → Bool
  | .boolean _ => true
  | .null => true
  | .array a => wfArr (.array a)
  | .simpleString s => wfArr (.simpleString s)
  | .error e => wfArr (.error e)
  | .integer i => wfArr (.integer i)
  | .bulkString b => wfArr (.bulkString b)

/-- The wire bytes of a client request sent as an Array of BulkStrings
(the shape the spec prescribes for every command). -/
def bulkReq (parts : List (List Nat)) : List Nat :=
  to_resp_string (.array (some (parts.map (fun p => .bulkString (some p)))))

/-! ## Decimal and ASCII lemmas -/

theorem noCR_iff (l : List Nat) : noCR l = true ↔ 13 ∉ l := by
  rw [noCR, List.all_eq_true]
  constructor
  · intro h hc
    have := h 13 hc
    simp at this
  · intro h b hb
    simp only [bne_iff_ne]
    intro he
    exact h (he ▸ hb)

theorem natDigitsGo_eq (fuel : Nat) :
    ∀ n acc, n ≤ fuel →
      natDigitsGo fuel n acc = ((Nat.digits 10 n).reverse.map (fun d => d + 48)) ++ acc := by
  induction fuel with
  | zero =>
    intro n acc h
    have : n = 0 := by omega
    subst this
    simp [natDigitsGo]
  | succ f ih =>
    intro n acc h
    by_cases hn : n = 0
    · subst hn; simp [natDigitsGo]
    · rw [natDigitsGo]
      simp only [hn, if_false]
      rw [ih (n / 10) _ (by omega)]
      rw [Nat.digits_def' (by norm_num : (1 : ℕ) < 10) (Nat.pos_of_ne_zero hn)]
      simp

theorem natDigits_eq (n : Nat) :
    natDigits n = if n = 0 then [48] else (Nat.digits 10 n).reverse.map (fun d => d + 48) := by
  by_cases hn : n = 0
  · simp [natDigits, hn]
  · simp [natDigits, hn, natDigitsGo_eq n n [] le_rfl]

theorem natDigits_mem (n b : Nat) (hb : b ∈ natDigits n) : 48 ≤ b ∧ b ≤ 57 := by
  rw [natDigits_eq] at hb
  by_cases hn : n = 0
  · simp [hn] at hb; omega
  · simp [hn] at hb
    obtain ⟨d, hd, rfl⟩ := hb
    have := Nat.digits_lt_base (by norm_num) hd
    omega

theorem natDigits_ne_nil (n : Nat) : natDigits n ≠ [] := by
  rw [natDigits_eq]
  by_cases hn : n = 0
  · simp [hn]
  · simp [hn, Nat.digits_ne_nil_iff_ne_zero]

theorem noCR_natDigits (n : Nat) : noCR (natDigits n) = true := by
  rw [noCR_iff]
  intro h
  have := natDigits_mem n 13 h
  omega

theorem isValidUtf8_ascii (l : List Nat) (h : ∀ b ∈ l, b ≤ 127) : isValidUtf8 l = true := by
  induction l with
  | nil => rfl
  | cons b rest ih =>
    have hb : b ≤ 127 := h b (by simp)
    rw [isValidUtf8]
    simp only [if_pos hb]
    exact ih (fun x hx => h x (by simp [hx]))

theorem isValidUtf8_natDigits (n : Nat) : isValidUtf8 (natDigits n) = true := by
  refine isValidUtf8_ascii _ (fun b hb => ?_)
  have := natDigits_mem n b hb
  omega

theorem foldl_digits_rev (l : List Nat) (hl : ∀ d ∈ l, d < 10) (a : Nat) :
    List.foldl (fun x b => x * 10 + (b - 48)) a ((l.reverse.map (fun d => d + 48))) =
      Nat.ofDigits 10 l + a * 10 ^ l.length := by
  induction l generalizing a with
  | nil => simp
  | cons d t ih =>
    have hd : d < 10 := hl d (by simp)
    have ht : ∀ x ∈ t, x < 10 := fun x hx => hl x (by simp [hx])
    simp only [List.reverse_cons, List.map_append, List.map_cons, List.map_nil,
      List.foldl_append, List.foldl_cons, List.foldl_nil, ih ht]
    have hd48 : d + 48 - 48 = d := by omega
    rw [hd48, Nat.ofDigits_cons, List.length_cons, pow_succ]
    ring

theorem digitsToNat_natDigits (n : Nat) : digitsToNat (natDigits n) = n := by
  rw [natDigits_eq]
  by_cases hn : n = 0
  · simp [hn, digitsToNat]
  · simp only [hn, if_false, digitsToNat]
    rw [foldl_digits_rev _ (fun d hd => Nat.digits_lt_base (by norm_num) hd) 0]
    simp [Nat.ofDigits_digits]

theorem all_isDigit_natDigits (n : Nat) : (natDigits n).all isDigit = true := by
  rw [List.all_eq_true]
  intro b hb
  have := natDigits_mem n b hb
  simp [isDigit]
  omega

theorem parseDigits_natDigits (n max : Nat) (h : n ≤ max) :
    parseDigits (natDigits n) max = .ok n := by
  rw [parseDigits]
  simp only [natDigits_ne_nil n, if_false, all_isDigit_natDigits n, if_true,
    digitsToNat_natDigits n]
  simp [h]

theorem natDigits_head_digit (n : Nat) :
    ∃ b t, natDigits n = b :: t ∧ 48 ≤ b ∧ b ≤ 57 := by
  cases hnd : natDigits n with
  | nil => exact absurd hnd (natDigits_ne_nil n)
  | cons b t =>
    have := natDigits_mem n b (by rw [hnd]; simp)
    exact ⟨b, t, rfl, this.1, this.2⟩

theorem parseU64_natDigits (n : Nat) (h : n < 2 ^ 64) :
    parseU64 (natDigits n) = .ok n := by
  obtain ⟨b, t, hbt, hb1, hb2⟩ := natDigits_head_digit n
  rw [hbt]
  have : b ≠ 43 := by omega
  rw [parseU64]
  · rw [← hbt, parseDigits_natDigits n _ (by omega)]
  · intro rest hc
    rw [List.cons.injEq] at hc
    omega

theorem parseI64_natDigits (n : Nat) (h : n < 2 ^ 63) :
    parseI64 (natDigits n) = .ok (Int.ofNat n) := by
  obtain ⟨b, t, hbt, hb1, hb2⟩ := natDigits_head_digit n
  rw [hbt]
  rw [parseI64]
  · rw [← hbt, parseDigits_natDigits n _ (by omega)]
    rfl
  · intro rest hc
    rw [List.cons.injEq] at hc
    omega
  · intro rest hc
    rw [List.cons.injEq] at hc
    omega

theorem parseI32_natDigits (n : Nat) (h : n < 2 ^ 31) :
    parseI32 (natDigits n) = .ok (Int.ofNat n) := by
  obtain ⟨b, t, hbt, hb1, hb2⟩ := natDigits_head_digit n
  rw [hbt]
  rw [parseI32]
  · rw [← hbt, parseDigits_natDigits n _ (by omega)]
    rfl
  · intro rest hc
    rw [List.cons.injEq] at hc
    omega
  · intro rest hc
    rw [List.cons.injEq] at hc
    omega

theorem parseI64_intDigits (i : Int) (h1 : -(2 ^ 63) ≤ i) (h2 : i < 2 ^ 63) :
    parseI64 (intDigits i) = .ok i := by
  by_cases hi : i < 0
  · rw [intDigits, if_pos hi, parseI64]
    rw [parseDigits_natDigits i.natAbs (2 ^ 63) (by omega)]
    simp only [Except.map]
    congr 1
    simp only [Int.ofNat_eq_coe]
    omega
  · rw [intDigits, if_neg hi]
    rw [parseI64_natDigits i.natAbs (by omega)]
    congr 1
    simp only [Int.ofNat_eq_coe]
    omega

/-! ## Parser stepping lemmas on serialized input -/

theorem takeLine_append (l rest : List Nat) (h : 13 ∉ l) :
    takeLine (l ++ 13 :: 10 :: rest) = (l, rest) := by
  induction l with
  | nil => simp [takeLine]
  | cons b t ih =>
    have hb : b ≠ 13 := fun hc => h (by simp [hc])
    have ht : 13 ∉ t := fun hc => h (by simp [hc])
    simp [takeLine, hb, ih ht]

theorem takeN_exact (l rest : List Nat) : takeN l.length (l ++ rest) = .ok (l, rest) := by
  induction l with
  | nil => simp [takeN]
  | cons b t ih => simp [takeN, ih]

theorem takeN_short (n : Nat) (l : List Nat) (h : l.length < n) :
    takeN n l = .error "Unexpected end of input" := by
  induction l generalizing n with
  | nil =>
    cases n with
    | zero => omega
    | succ m => rfl
  | cons b t ih =>
    cases n with
    | zero => omega
    | succ m =>
      have : t.length < m := by simpa using h
      simp [takeN, ih m this]

theorem pick_simple_string_ser (s : List Nat) (hCR : 13 ∉ s) (hU : isValidUtf8 s = true)
    (rest : List Nat) :
    pick_simple_string (to_resp_string (.simpleString s) ++ rest) =
      .ok (.simpleString s, rest) := by
  have htail : (to_resp_string (.simpleString s) ++ rest).tail = s ++ 13 :: 10 :: rest := by
    simp [to_resp_string]
  rw [pick_simple_string, htail, takeLine_append s rest hCR]
  simp [fromUtf8, hU]

theorem pick_error_ser (e : List Nat) (hCR : 13 ∉ e) (hU : isValidUtf8 e = true)
    (rest : List Nat) :
    pick_error (to_resp_string (.error e) ++ rest) = .ok (.error e, rest) := by
  have htail : (to_resp_string (.error e) ++ rest).tail = e ++ 13 :: 10 :: rest := by
    simp [to_resp_string]
  rw [pick_error, htail, takeLine_append e rest hCR]
  simp [fromUtf8, hU]

theorem noCR_intDigits (i : Int) : 13 ∉ intDigits i := by
  rw [intDigits]
  intro hmem
  by_cases hi : i < 0
  · simp only [if_pos hi, List.mem_cons] at hmem
    rcases hmem with h | h
    · omega
    · have := natDigits_mem _ _ h; omega
  · simp only [if_neg hi] at hmem
    have := natDigits_mem _ _ hmem; omega

theorem isValidUtf8_intDigits (i : Int) : isValidUtf8 (intDigits i) = true := by
  refine isValidUtf8_ascii _ (fun b hb => ?_)
  rw [intDigits] at hb
  by_cases hi : i < 0
  · simp only [if_pos hi, List.mem_cons] at hb
    rcases hb with h | h
    · omega
    · have := natDigits_mem _ _ h; omega
  · simp only [if_neg hi] at hb
    have := natDigits_mem _ _ hb; omega

theorem pick_integer_ser (i : Int) (h1 : -(2 ^ 63) ≤ i) (h2 : i < 2 ^ 63)
    (rest : List Nat) :
    pick_integer (to_resp_string (.integer i) ++ rest) = .ok (.integer i, rest) := by
  have htail : (to_resp_string (.integer i) ++ rest).tail = intDigits i ++ 13 :: 10 :: rest := by
    simp [to_resp_string]
  rw [pick_integer, htail, takeLine_append _ rest (noCR_intDigits i)]
  simp [fromUtf8, isValidUtf8_intDigits i, parseI64_intDigits i h1 h2]

theorem noCR_natDigits' (n : Nat) : 13 ∉ natDigits n := by
  intro h
  have := natDigits_mem n 13 h
  omega

theorem pick_bulk_string_ser_some (b : List Nat) (hU : isValidUtf8 b = true)
    (hlen : b.length < 2 ^ 31) (rest : List Nat) :
    pick_bulk_string (to_resp_string (.bulkString (some b)) ++ rest) =
      .ok (.bulkString (some b), rest) := by
  have htail : (to_resp_string (.bulkString (some b)) ++ rest).tail =
      natDigits b.length ++ 13 :: 10 :: (b ++ 13 :: 10 :: rest) := by
    simp [to_resp_string]
  rw [pick_bulk_string, htail, takeLine_append _ _ (noCR_natDigits' b.length)]
  have hne : (Int.ofNat b.length) ≠ -1 := by
    simp only [Int.ofNat_eq_coe]
    omega
  have htk : takeN (Int.ofNat b.length).toNat (b ++ 13 :: 10 :: rest) =
      .ok (b, 13 :: 10 :: rest) := by
    have h1 : (Int.ofNat b.length).toNat = b.length := by simp
    rw [h1]
    simpa using takeN_exact b (13 :: 10 :: rest)
  simp only [fromUtf8, isValidUtf8_natDigits, if_true, parseI32_natDigits b.length hlen,
    if_neg hne, htk, hU]
  simp

theorem pick_bulk_string_ser_none (rest : List Nat) :
    pick_bulk_string (to_resp_string (.bulkString none) ++ rest) =
      .ok (.bulkString none, rest) := by
  have htail : (to_resp_string (.bulkString none) ++ rest).tail =
      [45, 49] ++ 13 :: 10 :: rest := by
    simp [to_resp_string]
  rw [pick_bulk_string, htail, takeLine_append [45, 49] rest (by simp)]
  simp [fromUtf8, isValidUtf8, utf8Cont1, parseI32, parseDigits, isDigit, digitsToNat,
    Except.map]

/-- The bulk-string length parse is the inferred-`i32` one: a declared
length of `2 ^ 31` overflows it, so the header itself is rejected with
the overflow error before any payload byte is read (`pick_array`'s
explicit `parse::<i64>()` would have accepted it). -/
theorem bulk_length_i32_overflow :
    parse_resp (strToBytes "$2147483648\r\nabc") =
      .error "number too large to fit in target type" := rfl

theorem pick_boolean_ser (b : Bool) (rest : List Nat) :
    pick_boolean (to_resp_string (.boolean b) ++ rest) = .ok (.boolean b, rest) := by
  cases b with
  | true =>
    have htail : (to_resp_string (.boolean true) ++ rest).tail = [116] ++ 13 :: 10 :: rest := by
      simp [to_resp_string]
    rw [pick_boolean, htail, takeLine_append [116] rest (by simp)]
    simp [fromUtf8, isValidUtf8]
  | false =>
    have htail : (to_resp_string (.boolean false) ++ rest).tail = [102] ++ 13 :: 10 :: rest := by
      simp [to_resp_string]
    rw [pick_boolean, htail, takeLine_append [102] rest (by simp)]
    simp [fromUtf8, isValidUtf8]

theorem natDigits_length_pos (n : Nat) : 0 < (natDigits n).length := by
  cases hnd : natDigits n with
  | nil => exact absurd hnd (natDigits_ne_nil n)
  | cons b t => simp

theorem to_resp_string_length_pos (v : RedisValue) : 0 < (to_resp_string v).length := by
  cases v with
  | simpleString s => simp [to_resp_string]
  | error e => simp [to_resp_string]
  | integer i => simp [to_resp_string]
  | bulkString o => cases o <;> simp [to_resp_string]
  | array a => cases a <;> simp [to_resp_string]
  | boolean b => simp [to_resp_string]
  | null => simp [to_resp_string]

theorem pick_array_ser_none (fuel : Nat) (hf : 1 ≤ fuel) (rest : List Nat) :
    pick_array fuel (to_resp_string (.array none) ++ rest) = .ok (.array none, rest) := by
  cases fuel with
  | zero => omega
  | succ f =>
    have htail : (to_resp_string (.array none) ++ rest).tail = [45, 49] ++ 13 :: 10 :: rest := by
      simp [to_resp_string]
    rw [pick_array, htail, takeLine_append [45, 49] rest (by simp)]
    simp [fromUtf8, isValidUtf8, utf8Cont1, parseI64, parseDigits, isDigit, digitsToNat,
      Except.map]

/-- A delimited element at the head of the loop's buffer is consumed
exactly, leaving the loop on the rest of the buffer. -/
theorem arrayLoop_cons_delim (v : RedisValue) (h : wfDelim v = true) (fuel : Nat)
    (hf : 1 ≤ fuel) (S : List Nat) (acc : List RedisValue) :
    arrayLoop (fuel + 1) (to_resp_string v ++ S) acc = arrayLoop fuel S (acc ++ [v]) := by
  cases v with
  | simpleString s =>
    obtain ⟨h1, h2⟩ : noCR s = true ∧ isValidUtf8 s = true := by simpa [wfDelim] using h
    have hp := pick_simple_string_ser s ((noCR_iff s).mp h1) h2 S
    simp only [to_resp_string] at hp ⊢
    simp only [List.cons_append, arrayLoop]
    simp only [List.cons_append, List.append_assoc, List.nil_append] at hp
    simp [hp]
  | error e =>
    obtain ⟨h1, h2⟩ : noCR e = true ∧ isValidUtf8 e = true := by simpa [wfDelim] using h
    have hp := pick_error_ser e ((noCR_iff e).mp h1) h2 S
    simp only [to_resp_string] at hp ⊢
    simp only [List.cons_append, arrayLoop]
    simp only [List.cons_append, List.append_assoc, List.nil_append] at hp
    simp [hp]
  | integer i =>
    obtain ⟨h1, h2⟩ : -(2 ^ 63) ≤ i ∧ i < 2 ^ 63 := by simpa [wfDelim] using h
    have hp := pick_integer_ser i h1 h2 S
    simp only [to_resp_string] at hp ⊢
    simp only [List.cons_append, arrayLoop]
    simp only [List.cons_append, List.append_assoc, List.nil_append] at hp
    simp [hp]
  | bulkString o =>
    cases o with
    | some b =>
      obtain ⟨h1, h2⟩ : isValidUtf8 b = true ∧ b.length < 2 ^ 31 := by simpa [wfDelim] using h
      have hp := pick_bulk_string_ser_some b h1 h2 S
      simp only [to_resp_string] at hp ⊢
      simp only [List.cons_append, arrayLoop]
      simp only [List.cons_append, List.append_assoc, List.nil_append] at hp
      simp [hp]
    | none =>
      have hp := pick_bulk_string_ser_none S
      simp only [to_resp_string] at hp ⊢
      simp only [List.cons_append, arrayLoop]
      simp only [List.cons_append, List.append_assoc, List.nil_append] at hp
      simp [hp]
  | array a =>
    cases a with
    | some l => simp [wfDelim] at h
    | none =>
      have hp := pick_array_ser_none fuel hf S
      simp only [to_resp_string] at hp ⊢
      simp only [List.cons_append, arrayLoop]
      simp only [List.cons_append, List.append_assoc, List.nil_append] at hp
      simp [hp]
  | boolean b => simp [wfDelim] at h
  | null => simp [wfDelim] at h

/-- One delimited element whose serialization ends the buffer: the loop
consumes it, then terminates on the empty buffer. -/
theorem arrayLoop_single_delim (v : RedisValue) (hd : wfDelim v = true) (acc : List RedisValue)
    (f : Nat) (hf : 1 ≤ f) :
    arrayLoop (f + 1) (serializeList [v]) acc = .ok (acc ++ [v], []) := by
  simp only [serializeList]
  rw [arrayLoop_cons_delim v hd f hf [] acc]
  cases f with
  | zero => omega
  | succ f2 => simp [arrayLoop]

mutual
/-- Parsing the serialization of a well-formed array whose bytes end the
input recovers exactly the array. -/
theorem pick_array_ser (l : List RedisValue) (h : wfElems l = true)
    (hlen : l.length < 2 ^ 63) (fuel : Nat)
    (hf : (to_resp_string (.array (some l))).length ≤ fuel) :
    pick_array fuel (to_resp_string (.array (some l))) = .ok (.array (some l), []) := by
  cases fuel with
  | zero =>
    have := to_resp_string_length_pos (.array (some l))
    omega
  | succ f =>
    have hdig := natDigits_length_pos l.length
    have harith : (serializeList l).length < f := by
      simp only [to_resp_string, List.length_cons, List.length_append] at hf
      simp at hf
      omega
    have hne : Int.ofNat l.length ≠ -1 := by
      simp only [Int.ofNat_eq_coe]
      omega
    have htail : (to_resp_string (.array (some l))).tail =
        natDigits l.length ++ 13 :: 10 :: serializeList l := by
      simp [to_resp_string]
    rw [pick_array, htail, takeLine_append _ _ (noCR_natDigits' l.length)]
    simp only [fromUtf8, isValidUtf8_natDigits, if_true, parseI64_natDigits l.length hlen,
      if_neg hne]
    rw [arrayLoop_ser l h [] f harith]
    simp
termination_by (sizeOf l, 1)

/-- The element loop on the serialization of a well-formed element list
that ends the input accumulates exactly those elements. -/
theorem arrayLoop_ser (l : List RedisValue) (h : wfElems l = true) (acc : List RedisValue)
    (fuel : Nat) (hf : (serializeList l).length < fuel) :
    arrayLoop fuel (serializeList l) acc = .ok (acc ++ l, []) := by
  cases l with
  | nil =>
    cases fuel with
    | zero => exact absurd hf (Nat.not_lt_zero _)
    | succ f => simp [serializeList, arrayLoop]
  | cons v tail =>
    cases tail with
    | nil =>
      have hwa : wfArr v = true := by simpa [wfElems] using h
      cases fuel with
      | zero => exact absurd hf (Nat.not_lt_zero _)
      | succ f =>
        have hpos := to_resp_string_length_pos v
        have hflen : (to_resp_string v).length ≤ f := by
          simp only [serializeList, List.append_nil, List.length_append, List.length_nil] at hf
          omega
        cases v with
        | simpleString s =>
          rw [wfArr] at hwa
          exact arrayLoop_single_delim _ hwa acc f (by omega)
        | error e =>
          rw [wfArr] at hwa
          exact arrayLoop_single_delim _ hwa acc f (by omega)
        | integer i =>
          rw [wfArr] at hwa
          exact arrayLoop_single_delim _ hwa acc f (by omega)
        | bulkString o =>
          rw [wfArr] at hwa
          exact arrayLoop_single_delim _ hwa acc f (by omega)
        | boolean b => simp [wfArr] at hwa
        | null => simp [wfArr] at hwa
        | array a =>
          cases a with
          | none =>
            rw [wfArr] at hwa
            exact arrayLoop_single_delim _ hwa acc f (by omega)
          | some l2 =>
            have hl2 : l2.length < 2 ^ 63 ∧ wfElems l2 = true := by simpa [wfArr] using hwa
            have hx := pick_array_ser l2 hl2.2 hl2.1 f hflen
            simp only [serializeList, List.append_nil]
            simp only [to_resp_string] at hx ⊢
            simp only [List.cons_append, arrayLoop]
            simp only [List.cons_append, List.append_assoc, List.nil_append] at hx
            simp [hx]
            cases f with
            | zero => omega
            | succ f2 => simp [arrayLoop]
    | cons v2 rest =>
      have hsplit : wfDelim v = true ∧ wfElems (v2 :: rest) = true := by
        simpa [wfElems] using h
      cases fuel with
      | zero => exact absurd hf (Nat.not_lt_zero _)
      | succ f =>
        have hlens : serializeList (v :: v2 :: rest) =
            to_resp_string v ++ serializeList (v2 :: rest) := by
          rw [serializeList]
        have hpos1 := to_resp_string_length_pos v
        have harith : (serializeList (v2 :: rest)).length < f := by
          rw [hlens] at hf
          simp only [List.length_append] at hf
          omega
        rw [hlens, arrayLoop_cons_delim v hsplit.1 f (by omega) _ acc]
        rw [arrayLoop_ser (v2 :: rest) hsplit.2 (acc ++ [v]) f harith]
        simp
termination_by (sizeOf l, 0)
end

/-- Round trip at top level for the well-formed fragment. -/
theorem parse_resp_roundtrip (v : RedisValue) (h : wfTop v = true) :
    parse_resp (to_resp_string v) = .ok (some v) := by
  cases v with
  | simpleString s =>
    have hd : noCR s = true ∧ isValidUtf8 s = true := by
      simpa [wfTop, wfArr, wfDelim] using h
    have hp := pick_simple_string_ser s ((noCR_iff s).mp hd.1) hd.2 []
    rw [List.append_nil] at hp
    have hser : ∃ X, to_resp_string (.simpleString s) = 43 :: X := by
      simp only [to_resp_string, List.cons_append]
      exact ⟨_, rfl⟩
    obtain ⟨X, hser⟩ := hser
    rw [hser] at hp
    rw [parse_resp, hser]
    simp only [List.length_cons]
    rw [parse_resp_go]
    simp [hp]
  | error e =>
    have hd : noCR e = true ∧ isValidUtf8 e = true := by
      simpa [wfTop, wfArr, wfDelim] using h
    have hp := pick_error_ser e ((noCR_iff e).mp hd.1) hd.2 []
    rw [List.append_nil] at hp
    have hser : ∃ X, to_resp_string (.error e) = 45 :: X := by
      simp only [to_resp_string, List.cons_append]
      exact ⟨_, rfl⟩
    obtain ⟨X, hser⟩ := hser
    rw [hser] at hp
    rw [parse_resp, hser]
    simp only [List.length_cons]
    rw [parse_resp_go]
    simp [hp]
  | integer i =>
    have hd : -(2 ^ 63) ≤ i ∧ i < 2 ^ 63 := by
      simpa [wfTop, wfArr, wfDelim] using h
    have hp := pick_integer_ser i hd.1 hd.2 []
    rw [List.append_nil] at hp
    have hser : ∃ X, to_resp_string (.integer i) = 58 :: X := by
      simp only [to_resp_string, List.cons_append]
      exact ⟨_, rfl⟩
    obtain ⟨X, hser⟩ := hser
    rw [hser] at hp
    rw [parse_resp, hser]
    simp only [List.length_cons]
    rw [parse_resp_go]
    simp [hp]
  | bulkString o =>
    cases o with
    | some b =>
      have hd : isValidUtf8 b = true ∧ b.length < 2 ^ 31 := by
        simpa [wfTop, wfArr, wfDelim] using h
      have hp := pick_bulk_string_ser_some b hd.1 hd.2 []
      rw [List.append_nil] at hp
      have hser : ∃ X, to_resp_string (.bulkString (some b)) = 36 :: X := by
        simp only [to_resp_string, List.cons_append]
        exact ⟨_, rfl⟩
      obtain ⟨X, hser⟩ := hser
      rw [hser] at hp
      rw [parse_resp, hser]
      simp only [List.length_cons]
      rw [parse_resp_go]
      simp [hp]
    | none => rfl
  | array a =>
    cases a with
    | some l =>
      have hd : l.length < 2 ^ 63 ∧ wfElems l = true := by
        simpa [wfTop, wfArr] using h
      have hser : ∃ X, to_resp_string (.array (some l)) = 42 :: X := by
        simp only [to_resp_string, List.cons_append, List.append_assoc]
        exact ⟨_, rfl⟩
      obtain ⟨X, hser⟩ := hser
      have hx := pick_array_ser l hd.2 hd.1 (X.length + 1) (by rw [hser]; simp)
      rw [hser] at hx
      rw [parse_resp, hser]
      simp only [List.length_cons]
      rw [parse_resp_go]
      simp [hx]
    | none => rfl
  | boolean b =>
    have hp := pick_boolean_ser b []
    rw [List.append_nil] at hp
    cases b with
    | true =>
      rw [parse_resp]
      rw [show to_resp_string (.boolean true) = [35, 116, 13, 10] from rfl] at hp ⊢
      simp only [List.length_cons]
      rw [parse_resp_go]
      simp [hp]
    | false =>
      rw [parse_resp]
      rw [show to_resp_string (.boolean false) = [35, 102, 13, 10] from rfl] at hp ⊢
      simp only [List.length_cons]
      rw [parse_resp_go]
      simp [hp]
  | null => rfl

/-! ## Well-formedness of command requests -/

theorem natDigits_length_le64 (n : Nat) (h : n < 2 ^ 64) : (natDigits n).length ≤ 64 := by
  rw [natDigits_eq]
  by_cases hn : n = 0
  · simp [hn]
  · simp only [hn, if_false, List.length_map, List.length_reverse]
    rw [Nat.digits_len 10 n (by norm_num) hn]
    have hlt : n < 10 ^ 64 := lt_of_lt_of_le h (by norm_num)
    have := (Nat.lt_pow_iff_log_lt (by norm_num : 1 < 10) hn).mp hlt
    omega

theorem wfArr_of_delim (v : RedisValue) (h : wfDelim v = true) : wfArr v = true := by
  cases v with
  | simpleString s => rw [wfArr]; exact h
  | error e => rw [wfArr]; exact h
  | integer i => rw [wfArr]; exact h
  | bulkString o => rw [wfArr]; exact h
  | array a =>
    cases a with
    | some l => simp [wfDelim] at h
    | none => rw [wfArr]; exact h
  | boolean b => simp [wfDelim] at h
  | null => simp [wfDelim] at h

theorem wfElems_of_delim : ∀ l : List RedisValue,
    (∀ v ∈ l, wfDelim v = true) → wfElems l = true
  | [], _ => rfl
  | [v], h => by
    rw [wfElems]
    exact wfArr_of_delim v (h v (by simp))
  | v :: v2 :: rest, h => by
    rw [wfElems]
    have h2 := wfElems_of_delim (v2 :: rest) (fun x hx => h x (List.mem_cons_of_mem v hx))
    simp [h v (by simp), h2]

theorem wfTop_bulkReq (parts : List (List Nat))
    (h : ∀ p ∈ parts, isValidUtf8 p = true ∧ p.length < 2 ^ 31)
    (hn : parts.length < 2 ^ 63) :
    wfTop (.array (some (parts.map (fun p => .bulkString (some p))))) = true := by
  rw [wfTop, wfArr]
  simp only [Bool.and_eq_true, decide_eq_true_eq]
  constructor
  · simpa using hn
  · refine wfElems_of_delim _ (fun v hv => ?_)
    simp only [List.mem_map] at hv
    obtain ⟨p, hp, rfl⟩ := hv
    have h2 := (h p hp).2
    simp [wfDelim, (h p hp).1]
    omega

/-- Every command request built as an Array of BulkStrings parses back,
so `extract_commands` on its wire bytes reduces to interpretation of the
parsed value. -/
theorem extract_commands_bulkReq (parts : List (List Nat))
    (h : ∀ p ∈ parts, isValidUtf8 p = true ∧ p.length < 2 ^ 31)
    (hn : parts.length < 2 ^ 63) :
    extract_commands (bulkReq parts) =
      extractFromParsed (some (.array (some (parts.map (fun p => .bulkString (some p)))))) := by
  rw [extract_commands, bulkReq, parse_resp_roundtrip _ (wfTop_bulkReq parts h hn)]

/-! ## Claim C2: serialization round trip -/

/-- C2 (counterexample): the constructible value `Array(Some([Boolean(true)]))`
(nesting depth 2) does not round-trip: the array element loop has no arm
for the `#` prefix, so parsing the serialization fails with
`Unexpected byte in array` instead of returning `Ok(Some(v))`. -/
theorem C2_counterexample :
    parse_resp (to_resp_string (.array (some [.boolean true]))) =
      .error "Unexpected byte in array" := rfl

/-- C2 (amended): round trip `parse_resp (to_resp_string v) = Ok(Some v)`
holds for every value in the regular fragment `wfTop`: SimpleString and
Error text without a CR byte, i64-range integers, bulk-string byte
lengths below `2 ^ 31` (the unannotated length parse infers i32),
array counts in i64 range, no Boolean or Null elements inside arrays,
and a non-nil array nested inside an array only as its final element. -/
theorem C2_roundtrip_wf (v : RedisValue) (h : wfTop v = true) :
    parse_resp (to_resp_string v) = .ok (some v) :=
  parse_resp_roundtrip v h

/-- C2 witness: a depth-3 value in the fragment round-trips. -/
theorem C2_witness :
    parse_resp (to_resp_string (.array (some [.simpleString [97], .integer (-5),
        .bulkString none, .array (some [.bulkString (some [104, 105]),
        .array (some [.integer 7])])]))) =
      .ok (some (.array (some [.simpleString [97], .integer (-5), .bulkString none,
        .array (some [.bulkString (some [104, 105]), .array (some [.integer 7])])]))) :=
  C2_roundtrip_wf _ (by decide)

/-! ## Claim C3: command extraction on non-command shapes -/

/-- C3 (code-bug evidence): `*0\r\n` parses to the empty array
`Array(Some([]))`, and `extract_commands` panics on it — the `&array[0]`
indexing of the empty `Vec` is out of bounds — instead of returning the
not-a-command error the specification requires for that shape. -/
theorem C3_empty_array_panics :
    parse_resp (strToBytes "*0\r\n") = .ok (some (.array (some []))) ∧
    extract_commands (strToBytes "*0\r\n") = .panicked :=
  ⟨rfl, rfl⟩

/-! ## Claim C4: truncated input -/

/-- C4 (counterexample): an array whose count header promises three
elements but whose buffer holds only one parses successfully to the
one-element array — the element loop never consults the count — rather
than failing with an end-of-input error. -/
theorem C4_counterexample :
    parse_resp (strToBytes "*3\r\n:1\r\n") = .ok (some (.array (some [.integer 1]))) := rfl

/-- C4 (amended): the bulk-string half of the claim holds for declared
lengths the header parse accepts (below `2 ^ 31`, the i32 bound of the
unannotated `parse()?`): whenever such a declared length exceeds the
bytes available after the header, the byte-pulling loop hits the end of
the iterator and `parse_resp` fails with the source's
`Unexpected end of input` error. A still larger header fails earlier,
in the length parse itself, with the overflow error. -/
theorem C4_truncated_bulk_eof (n : Nat) (payload : List Nat) (h1 : n < 2 ^ 31)
    (h2 : payload.length < n) :
    parse_resp (36 :: (natDigits n ++ 13 :: 10 :: payload)) =
      .error "Unexpected end of input" := by
  have hpick : pick_bulk_string (36 :: (natDigits n ++ 13 :: 10 :: payload)) =
      .error "Unexpected end of input" := by
    rw [pick_bulk_string]
    simp only [List.tail_cons]
    rw [takeLine_append _ _ (noCR_natDigits' n)]
    simp only [fromUtf8, isValidUtf8_natDigits, if_true, parseI32_natDigits n h1]
    have hne : Int.ofNat n ≠ -1 := by
      simp only [Int.ofNat_eq_coe]
      omega
    rw [if_neg hne]
    have ht : (Int.ofNat n).toNat = n := by simp
    rw [ht, takeN_short n payload h2]
  rw [parse_resp]
  simp only [List.length_cons]
  rw [parse_resp_go]
  simp [hpick]

/-- C4 witness: `$5\r\nabc` (three payload bytes against a declared
length of five) fails with the end-of-input error. -/
theorem C4_witness :
    parse_resp (36 :: (natDigits 5 ++ 13 :: 10 :: strToBytes "abc")) =
      .error "Unexpected end of input" :=
  C4_truncated_bulk_eof 5 (strToBytes "abc") (by norm_num) (by decide)

/-! ## Claim C10: the skipped bulk-string delimiter -/

/-- C10 (counterexample): the claim quantifies over every `N`-byte
payload, but a payload that is not valid UTF-8 (here the single byte
`0xFF`) makes `String::from_utf8` fail, so `parse_resp` returns an
encoding error rather than succeeding. -/
theorem C10_counterexample :
    parse_resp (strToBytes "$1\r\n" ++ [255] ++ strToBytes "XY") =
      .error "invalid utf-8" := rfl

/-- C10 (amended): for every valid-UTF-8 payload whose declared length
the header parse accepts (below `2 ^ 31`, the i32 bound of the
unannotated `parse()?`), the two bytes after the payload are skipped
without being checked against `\r\n`, so any two trailing bytes are
silently accepted and the bulk string parses successfully. -/
theorem C10_trailing_bytes_unchecked (n : Nat) (payload : List Nat) (t1 t2 : Nat)
    (h1 : n < 2 ^ 31) (h2 : payload.length = n) (h3 : isValidUtf8 payload = true) :
    parse_resp (36 :: (natDigits n ++ 13 :: 10 :: (payload ++ [t1, t2]))) =
      .ok (some (.bulkString (some payload))) := by
  subst h2
  have hpick : pick_bulk_string (36 :: (natDigits payload.length ++ 13 :: 10 ::
      (payload ++ [t1, t2]))) = .ok (.bulkString (some payload), []) := by
    rw [pick_bulk_string]
    simp only [List.tail_cons]
    rw [takeLine_append _ _ (noCR_natDigits' payload.length)]
    simp only [fromUtf8, isValidUtf8_natDigits, if_true,
      parseI32_natDigits payload.length h1]
    have hne : Int.ofNat payload.length ≠ -1 := by
      simp only [Int.ofNat_eq_coe]
      omega
    rw [if_neg hne]
    have ht : (Int.ofNat payload.length).toNat = payload.length := by simp
    rw [ht, takeN_exact payload [t1, t2]]
    simp [h3]
  rw [parse_resp]
  simp only [List.length_cons]
  rw [parse_resp_go]
  simp [hpick]

/-- C10 witness: `$3\r\nabcXY` is accepted as `BulkString("abc")` even
though the trailing delimiter is `XY`, not `\r\n`. -/
theorem C10_witness :
    parse_resp (36 :: (natDigits 3 ++ 13 :: 10 :: (strToBytes "abc" ++ [88, 89]))) =
      .ok (some (.bulkString (some (strToBytes "abc")))) :=
  C10_trailing_bytes_unchecked 3 (strToBytes "abc") 88 89 (by norm_num) (by decide) (by decide)

/-! ## Claim C8: partial write -/

/-- C8 (code-bug evidence): a writable event on a connection holding
`abc` whose socket accepts one byte and then would block: the unwritten
remainder `bc` is preserved byte-for-byte, but `write_to_socket`
reports plain success, so the reactor logs `Response sent` and
unregisters the write interest even though the buffer is not drained —
the connection does not stay registered for write-readiness as the
specification requires. -/
theorem C8_partial_write_unregisters :
    handle_conn_event
      { streams := [(5, { write_buffer := [97, 98, 99] })],
        registrations := [(5, .write)] }
      5 .write [] [.ok 1, .wouldBlock] =
    .next
      { streams := [(5, { write_buffer := [98, 99] })], registrations := [] }
      ["Response sent"] := rfl

/-! ## Claim C9: socket read errors -/

/-- C9 (code-bug evidence): a fatal (non-would-block) read error is only
logged: the connection stays in `streams_map`, stays registered with
the kqueue, and keeps its buffers — no teardown happens, contrary to
the specification's I/O-error policy. -/
theorem C9_read_error_only_logged :
    handle_conn_event
      { streams := [(5, { write_buffer := [] })], registrations := [(5, .read)] }
      5 .read [.fatal] [] =
    .next
      { streams := [(5, { write_buffer := [] })], registrations := [(5, .read)] }
      ["Failed to read from stream"] := rfl

/-! ## Claim C6: lazy expiry in `Storage::get` -/

/-- C6: `Storage::get` returns `None` exactly when the key is absent or
the entry has an expiry and the elapsed milliseconds since insertion
strictly exceed it; otherwise it returns the stored entry unchanged;
and, taking `&self`, it leaves the store exactly as it was — the
expired entry is never removed. -/
theorem C6_storage_get (s : Storage) (key : List Nat) (now : Nat) :
    ((Storage.get s key now).1 = none ↔
      assocLookup s.data key = none ∨
        ∃ d e, assocLookup s.data key = some d ∧ d.expiry = some e ∧
          now - d.inserted_at > e) ∧
    (∀ d, assocLookup s.data key = some d →
      (Storage.get s key now).1 = none ∨ (Storage.get s key now).1 = some d) ∧
    (Storage.get s key now).2 = s := by
  refine ⟨?_, ?_, ?_⟩
  · rw [Storage.get]
    rcases hl : assocLookup s.data key with _ | d
    · simp
    · rcases he : d.expiry with _ | e
      · simp [he]
      · by_cases hlt : now - d.inserted_at > e
        · simp [he, hlt]
        · simp [he, hlt]
  · intro d hd
    rw [Storage.get, hd]
    dsimp only
    rcases he : d.expiry with _ | e
    · simp [he]
    · by_cases hlt : now - d.inserted_at > e
      · simp [hlt]
      · simp [hlt]
  · rw [Storage.get]
    rcases hl : assocLookup s.data key with _ | d
    · rfl
    · rcases he : d.expiry with _ | e
      · simp [he]
      · by_cases hlt : now - d.inserted_at > e
        · simp [he, hlt]
        · simp [he, hlt]

/-- C6 witness: on a store holding key `k` (107) inserted at 100 with
expiry 10 ms, a read at 200 ms observes `None` (elapsed 100 > 10), and
the store afterwards still holds the expired entry. -/
theorem C6_witness :
    (Storage.get { data := [([107], { value := .null, expiry := some 10, inserted_at := 100 })] }
        [107] 200).1 = none ∧
    (Storage.get { data := [([107], { value := .null, expiry := some 10, inserted_at := 100 })] }
        [107] 200).2 =
      { data := [([107], { value := .null, expiry := some 10, inserted_at := 100 })] } :=
  ⟨(C6_storage_get _ _ _).1.mpr
      (Or.inr ⟨{ value := .null, expiry := some 10, inserted_at := 100 }, 10, rfl, rfl,
        by norm_num⟩),
    (C6_storage_get _ _ _).2.2⟩

/-! ## Claim C7: orderly disconnect -/

theorem streamsLookup_filter_self (l : List (Nat × RequestContext)) (fd : Nat) :
    streamsLookup (l.filter (fun p => p.1 != fd)) fd = none := by
  induction l with
  | nil => rfl
  | cons p rest ih =>
    obtain ⟨kk, cc⟩ := p
    rw [List.filter_cons]
    by_cases hp : kk = fd
    · have hb : ¬(((kk, cc).1 != fd) = true) := by simp [hp]
      rw [if_neg hb]
      exact ih
    · have hb : ((kk, cc).1 != fd) = true := by simp [hp]
      rw [if_pos hb, streamsLookup]
      simp [hp, ih]

theorem not_mem_filter_fst_ne (regs : List (Nat × KFilter)) (fd : Nat) (i : KFilter) :
    (fd, i) ∉ regs.filter (fun p => p.1 != fd) := by
  intro hmem
  rw [List.mem_filter] at hmem
  simp at hmem

/-- C7: a zero-length read tears the connection down — it leaves the
connection table (and, the dropped socket being closed, every kqueue
registration for its descriptor disappears) — and any later event
carrying the same descriptor finds no entry, so the reactor only logs
the unknown-descriptor message and changes nothing: no panic, no crash. -/
theorem C7_zero_read_teardown (s : ServerState) (fd : Nat) (ctx : RequestContext)
    (reads : List ReadResult) (writes : List WriteResult)
    (hconn : streamsLookup s.streams fd = some ctx)
    (hread : handle_read reads = .disconnected) :
    handle_conn_event s fd .read reads writes =
      .next (dropConnection s fd) ["Client disconnected"] ∧
    streamsLookup (dropConnection s fd).streams fd = none ∧
    (∀ i, (fd, i) ∉ (dropConnection s fd).registrations) ∧
    (∀ filt reads2 writes2, handle_conn_event (dropConnection s fd) fd filt reads2 writes2 =
      .next (dropConnection s fd) ["Got event for unknown file descriptor"]) := by
  refine ⟨?_, ?_, ?_, ?_⟩
  · rw [handle_conn_event, hconn]
    simp only [hread]
  · exact streamsLookup_filter_self s.streams fd
  · intro i
    exact not_mem_filter_fst_ne s.registrations fd i
  · intro filt reads2 writes2
    rw [handle_conn_event]
    rw [show streamsLookup (dropConnection s fd).streams fd = none from
      streamsLookup_filter_self s.streams fd]

/-- C7 witness: a single connection (descriptor 5, registered for read
and write) whose socket returns a zero-length read is removed and
deregistered, and a later write event for descriptor 5 only logs the
unknown-descriptor message. -/
theorem C7_witness :
    handle_conn_event
      { streams := [(5, { write_buffer := [120] })],
        registrations := [(5, .read), (5, .write)] }
      5 .read [.ok []] [] =
      .next { streams := [], registrations := [] } ["Client disconnected"] ∧
    handle_conn_event { streams := [], registrations := [] } 5 .write [] [.ok 1] =
      .next { streams := [], registrations := [] }
        ["Got event for unknown file descriptor"] := by
  have h := C7_zero_read_teardown
    { streams := [(5, { write_buffer := [120] })],
      registrations := [(5, .read), (5, .write)] }
    5 { write_buffer := [120] } [.ok []] [] rfl rfl
  exact ⟨h.1, h.2.2.2 .write [] [.ok 1]⟩

/-! ## Claim C1: the served command surface -/

/-- C1 (counterexample): the well-formed request `GET key` extracts to
the `GET` command — not an unknown-command failure — yet
`handle_request` answers it with the error reply
`-ERR unknown command\r\n`: the handler's reply match covers only
`PING` and `ECHO` and sends every other command to its `_` arm. -/
theorem C1_counterexample :
    extract_commands (bulkReq [strToBytes "GET", strToBytes "key"]) =
      .ok (.GET (.bulkString (some (strToBytes "key")))) ∧
    handle_request (bulkReq [strToBytes "GET", strToBytes "key"]) =
      .reply (strToBytes "-ERR unknown command\r\n") :=
  ⟨rfl, rfl⟩

/-- C1 (amended): for every well-formed `GET`/`SET` request (an Array of
BulkStrings whose component lengths stay below the i32 bound `2 ^ 31`
of the bulk-length parse, so the request is parseable at all),
`extract_commands` recognizes the command — `GET` and `SET` are not
rejected as unknown commands — but `handle_request` nevertheless
produces the `-ERR unknown command\r\n` error reply, not the command's
reply: only `PING` and `ECHO` are served. -/
theorem C1_get_set_unknown_reply (k v : List Nat)
    (hk1 : isValidUtf8 k = true) (hk2 : k.length < 2 ^ 31)
    (hv1 : isValidUtf8 v = true) (hv2 : v.length < 2 ^ 31) :
    extract_commands (bulkReq [strToBytes "GET", k]) =
        .ok (.GET (.bulkString (some k))) ∧
    handle_request (bulkReq [strToBytes "GET", k]) =
        .reply (strToBytes "-ERR unknown command\r\n") ∧
    extract_commands (bulkReq [strToBytes "SET", k, v]) =
        .ok (.SET (.bulkString (some k)) (.bulkString (some v)) none) ∧
    handle_request (bulkReq [strToBytes "SET", k, v]) =
        .reply (strToBytes "-ERR unknown command\r\n") := by
  have hex1 : extract_commands (bulkReq [strToBytes "GET", k]) =
      .ok (.GET (.bulkString (some k))) := by
    rw [extract_commands_bulkReq]
    · simp only [List.map_cons, List.map_nil]
      simp [extractFromParsed, extractNamed, toUppercase, toUpperByte,
        show strToBytes "GET" = [71, 69, 84] from rfl]
    · intro p hp
      simp only [List.mem_cons, List.not_mem_nil, or_false] at hp
      rcases hp with rfl | rfl
      · exact ⟨by decide, by decide⟩
      · exact ⟨hk1, hk2⟩
    · simp
  have hex2 : extract_commands (bulkReq [strToBytes "SET", k, v]) =
      .ok (.SET (.bulkString (some k)) (.bulkString (some v)) none) := by
    rw [extract_commands_bulkReq]
    · simp only [List.map_cons, List.map_nil]
      simp [extractFromParsed, extractNamed, setOptionsLoop, toUppercase, toUpperByte,
        show strToBytes "SET" = [83, 69, 84] from rfl]
    · intro p hp
      simp only [List.mem_cons, List.not_mem_nil, or_false] at hp
      rcases hp with rfl | rfl | rfl
      · exact ⟨by decide, by decide⟩
      · exact ⟨hk1, hk2⟩
      · exact ⟨hv1, hv2⟩
    · simp
  refine ⟨hex1, ?_, hex2, ?_⟩
  · rw [handle_request, hex1]
  · rw [handle_request, hex2]

/-- C1 witness: concrete key and value. -/
theorem C1_witness :
    extract_commands (bulkReq [strToBytes "GET", strToBytes "k1"]) =
        .ok (.GET (.bulkString (some (strToBytes "k1")))) ∧
    handle_request (bulkReq [strToBytes "GET", strToBytes "k1"]) =
        .reply (strToBytes "-ERR unknown command\r\n") ∧
    extract_commands (bulkReq [strToBytes "SET", strToBytes "k1", strToBytes "v1"]) =
        .ok (.SET (.bulkString (some (strToBytes "k1")))
          (.bulkString (some (strToBytes "v1"))) none) ∧
    handle_request (bulkReq [strToBytes "SET", strToBytes "k1", strToBytes "v1"]) =
        .reply (strToBytes "-ERR unknown command\r\n") :=
  C1_get_set_unknown_reply (strToBytes "k1") (strToBytes "v1")
    (by decide) (by decide) (by decide) (by decide)

/-! ## Claim C5: SET expiry options -/

/-- C5: for a valid `SET` (key and value parseable as bulk strings,
i.e. of byte length below the i32 bound `2 ^ 31`), the recorded expiry
is decided by the last option parsed, with `EX` scaled by 1000:
`SET k v EX a` produces the same expiry as `SET k v PX (a*1000)`
(namely `a*1000` milliseconds), and when both options appear the later
one overwrites the earlier one, whichever order they come in. -/
theorem C5_set_expiry (k v : List Nat)
    (hk1 : isValidUtf8 k = true) (hk2 : k.length < 2 ^ 31)
    (hv1 : isValidUtf8 v = true) (hv2 : v.length < 2 ^ 31)
    (a b : Nat) (ha : a * 1000 < 2 ^ 64) (hb : b < 2 ^ 64) :
    extract_commands (bulkReq [strToBytes "SET", k, v, strToBytes "EX", natDigits a]) =
        .ok (.SET (.bulkString (some k)) (.bulkString (some v)) (some (a * 1000))) ∧
    extract_commands (bulkReq [strToBytes "SET", k, v, strToBytes "PX",
        natDigits (a * 1000)]) =
        .ok (.SET (.bulkString (some k)) (.bulkString (some v)) (some (a * 1000))) ∧
    extract_commands (bulkReq [strToBytes "SET", k, v, strToBytes "EX", natDigits a,
        strToBytes "PX", natDigits b]) =
        .ok (.SET (.bulkString (some k)) (.bulkString (some v)) (some b)) ∧
    extract_commands (bulkReq [strToBytes "SET", k, v, strToBytes "PX", natDigits b,
        strToBytes "EX", natDigits a]) =
        .ok (.SET (.bulkString (some k)) (.bulkString (some v)) (some (a * 1000))) := by
  have ha' : a < 2 ^ 64 := by
    have h1 : a ≤ a * 1000 := Nat.le_mul_of_pos_right a (by norm_num)
    omega
  have hdig : ∀ m : Nat, m < 2 ^ 64 →
      isValidUtf8 (natDigits m) = true ∧ (natDigits m).length < 2 ^ 31 := fun m hm =>
    ⟨isValidUtf8_natDigits m, lt_of_le_of_lt (natDigits_length_le64 m hm) (by norm_num)⟩
  refine ⟨?_, ?_, ?_, ?_⟩
  · rw [extract_commands_bulkReq]
    · simp only [List.map_cons, List.map_nil]
      simp [extractFromParsed, extractNamed, setOptionsLoop, toUppercase, toUpperByte,
        show strToBytes "SET" = [83, 69, 84] from rfl,
        show strToBytes "EX" = [69, 88] from rfl,
        parseU64_natDigits a ha', Nat.mod_eq_of_lt ha]
      omega
    · intro p hp
      simp only [List.mem_cons, List.not_mem_nil, or_false] at hp
      rcases hp with rfl | rfl | rfl | rfl | rfl
      · exact ⟨by decide, by decide⟩
      · exact ⟨hk1, hk2⟩
      · exact ⟨hv1, hv2⟩
      · exact ⟨by decide, by decide⟩
      · exact hdig a ha'
    · simp
  · rw [extract_commands_bulkReq]
    · simp only [List.map_cons, List.map_nil]
      simp [extractFromParsed, extractNamed, setOptionsLoop, toUppercase, toUpperByte,
        show strToBytes "SET" = [83, 69, 84] from rfl,
        show strToBytes "PX" = [80, 88] from rfl,
        parseU64_natDigits (a * 1000) ha]
    · intro p hp
      simp only [List.mem_cons, List.not_mem_nil, or_false] at hp
      rcases hp with rfl | rfl | rfl | rfl | rfl
      · exact ⟨by decide, by decide⟩
      · exact ⟨hk1, hk2⟩
      · exact ⟨hv1, hv2⟩
      · exact ⟨by decide, by decide⟩
      · exact hdig (a * 1000) ha
    · simp
  · rw [extract_commands_bulkReq]
    · simp only [List.map_cons, List.map_nil]
      simp [extractFromParsed, extractNamed, setOptionsLoop, toUppercase, toUpperByte,
        show strToBytes "SET" = [83, 69, 84] from rfl,
        show strToBytes "EX" = [69, 88] from rfl,
        show strToBytes "PX" = [80, 88] from rfl,
        parseU64_natDigits a ha', parseU64_natDigits b hb]
    · intro p hp
      simp only [List.mem_cons, List.not_mem_nil, or_false] at hp
      rcases hp with rfl | rfl | rfl | rfl | rfl | rfl | rfl
      · exact ⟨by decide, by decide⟩
      · exact ⟨hk1, hk2⟩
      · exact ⟨hv1, hv2⟩
      · exact ⟨by decide, by decide⟩
      · exact hdig a ha'
      · exact ⟨by decide, by decide⟩
      · exact hdig b hb
    · simp
  · rw [extract_commands_bulkReq]
    · simp only [List.map_cons, List.map_nil]
      simp [extractFromParsed, extractNamed, setOptionsLoop, toUppercase, toUpperByte,
        show strToBytes "SET" = [83, 69, 84] from rfl,
        show strToBytes "EX" = [69, 88] from rfl,
        show strToBytes "PX" = [80, 88] from rfl,
        parseU64_natDigits a ha', parseU64_natDigits b hb, Nat.mod_eq_of_lt ha]
      omega
    · intro p hp
      simp only [List.mem_cons, List.not_mem_nil, or_false] at hp
      rcases hp with rfl | rfl | rfl | rfl | rfl | rfl | rfl
      · exact ⟨by decide, by decide⟩
      · exact ⟨hk1, hk2⟩
      · exact ⟨hv1, hv2⟩
      · exact ⟨by decide, by decide⟩
      · exact hdig b hb
      · exact ⟨by decide, by decide⟩
      · exact hdig a ha'
    · simp

/-- C5 witness: `SET key val EX 5` records 5000 ms, `PX 5000` the same,
and with both options present the later one wins in either order. -/
theorem C5_witness :
    extract_commands (bulkReq [strToBytes "SET", strToBytes "key", strToBytes "val",
        strToBytes "EX", natDigits 5]) =
      .ok (.SET (.bulkString (some (strToBytes "key")))
        (.bulkString (some (strToBytes "val"))) (some 5000)) ∧
    extract_commands (bulkReq [strToBytes "SET", strToBytes "key", strToBytes "val",
        strToBytes "PX", natDigits 5000]) =
      .ok (.SET (.bulkString (some (strToBytes "key")))
        (.bulkString (some (strToBytes "val"))) (some 5000)) ∧
    extract_commands (bulkReq [strToBytes "SET", strToBytes "key", strToBytes "val",
        strToBytes "EX", natDigits 5, strToBytes "PX", natDigits 7]) =
      .ok (.SET (.bulkString (some (strToBytes "key")))
        (.bulkString (some (strToBytes "val"))) (some 7)) ∧
    extract_commands (bulkReq [strToBytes "SET", strToBytes "key", strToBytes "val",
        strToBytes "PX", natDigits 7, strToBytes "EX", natDigits 5]) =
      .ok (.SET (.bulkString (some (strToBytes "key")))
        (.bulkString (some (strToBytes "val"))) (some 5000)) := by
  have h := C5_set_expiry (strToBytes "key") (strToBytes "val")
    (by decide) (by decide) (by decide) (by decide) 5 7 (by norm_num) (by norm_num)
  exact h
